import Mathlib

/-!
Verification of the MAS coordinator (turn routing and stream aggregation).

The development shallowly embeds the Python sources:
  * `src/task/coordination/gpa.py` — `GPAGateway.response` and
    `GPAGateway.__prepare_gpa_messages`;
  * `src/task/coordination/ums_agent.py` — `UMSAgentGateway.response`,
    `__get_ums_conversation_id`, `__create_ums_conversation`,
    `__call_ums_agent`;
  * `src/task/agent.py` — `MASCoordinator.handle_request` and
    `MASCoordinator.__handle_coordination_request`.

Python dictionaries are modelled as association lists (`List (String × Val)`)
with Python `dict.update` semantics; Python truthiness is modelled by `Val.truthy`.
Stateful interaction with the DIAL `Choice` (appending content, setting state,
opening and closing stages) is modelled by explicit state passing.
-/

namespace MAS

/-- A Python-style JSON-like value, as carried in message `custom_content.state`
and in GPA stream `state` deltas. -/
inductive Val where
  | vStr : String → Val
  | vBool : Bool → Val
  | vNat : Nat → Val
  | vDict : List (String × Val) → Val

/-- Python truthiness of a `Val` (`if state:`, `if not conversation_id:` … ). -/
def Val.truthy : Val → Bool
  | .vStr s => s != ""
  | .vBool b => b
  | .vNat n => n != 0
  | .vDict d => !d.isEmpty

/-- Truthiness of an optional value (Python `None` is falsy). -/
def optTruthy : Option Val → Bool
  | none => false
  | some v => v.truthy

/-- Lookup in an association list modelling a Python dict (`d.get(k)` / `d[k]`). -/
def lookupKey (d : List (String × Val)) (k : String) : Option Val :=
  (d.find? fun p => p.1 = k).map Prod.snd

/-- Whether the dict contains the key (`k in d`). -/
def hasKey (d : List (String × Val)) (k : String) : Bool :=
  d.any fun p => p.1 = k

/-- Setting one key of a Python dict: overwrite in place if present, else
append at the end (Python dicts keep insertion order). -/
def setKey (d : List (String × Val)) (k : String) (v : Val) : List (String × Val) :=
  if d.any (fun p => p.1 = k) then
    d.map fun p => if p.1 = k then (k, v) else p
  else d ++ [(k, v)]

/-- Python `base.update(upd)`: each key of `upd`, in order, overwrites `base`. -/
def dictUpdate (base upd : List (String × Val)) : List (String × Val) :=
  upd.foldl (fun d p => setKey d p.1 p.2) base

/-- Message roles (`aidial_sdk.chat_completion.Role`, restricted to the three
roles the coordinator handles). -/
inductive Role where
  | system | user | assistant
deriving DecidableEq

/-- An attachment; the gateways copy attachments through without inspecting
them, so the payload is kept opaque as a single string. -/
structure Attachment where
  data : String
deriving DecidableEq

/-- `CustomContent`: the side channel of a message (`attachments`, `state`).
`Option` models fields dropped by `dict(exclude_none=True)`. -/
structure CustomContent where
  attachments : Option (List Attachment)
  state : Option Val

/-- A chat message as seen by the gateways. -/
structure Msg where
  role : Role
  content : Option String
  custom_content : Option CustomContent

/-! ## GPA stream events (`src/task/coordination/gpa.py`) -/

/-- One stage event inside a GPA chunk's `custom_content.stages`:
`{index:int, name?:string, content?:string, attachments?:[...], status?:string}`. -/
structure StageEvt where
  index : Option Nat
  name : Option String
  content : Option String
  attachments : Option (List Attachment)
  status : Option String

/-- The `custom_content` of a GPA stream delta, after
`dict(exclude_none=True)`: a key is present iff the field is `some`. -/
structure DeltaCC where
  attachments : Option (List Attachment)
  state : Option Val
  stages : Option (List StageEvt)

/-- A GPA stream delta (`chunk.choices[0].delta`). -/
structure Delta where
  content : Option String
  custom_content : Option DeltaCC

/-- One streamed GPA chunk; the code only reads `chunk.choices[0].delta`. -/
structure Chunk where
  choices : List Delta

/-- A stage tracked in `stages_map`, together with how often it has actually
been closed.  `closeCount` counts successful closes: `close_stage_safely`
(modelled from the spec, `task/stage_util.py` is not under `src/`) closes an
open stage and swallows the error when the stage is already closed. -/
structure TrackedStage where
  name : Option String
  attachments : List Attachment
  closeCount : Nat
deriving DecidableEq

/-- Lookup in the `stages_map` (keys are the backend-assigned stage indices). -/
def lookupStage (m : List (Nat × TrackedStage)) (i : Nat) : Option TrackedStage :=
  (m.find? fun p => p.1 = i).map Prod.snd

/-- Overwrite the entry for index `i` in the `stages_map`. -/
def setStage (m : List (Nat × TrackedStage)) (i : Nat) (s : TrackedStage) :
    List (Nat × TrackedStage) :=
  m.map fun p => if p.1 = i then (i, s) else p

/-- The mutable state of `GPAGateway.response` while consuming the stream:
the local `content` accumulator, everything appended to the DIAL choice
(`choice.append_content`), the collected `result_custom_content`, and the
`stages_map`. -/
structure GPAState where
  content : String
  choiceContent : String
  resultAttachments : List Attachment
  resultState : Option (List (String × Val))
  stagesMap : List (Nat × TrackedStage)

/-- The state at the top of `GPAGateway.response`'s streaming loop. -/
def initGPAState : GPAState :=
  { content := "", choiceContent := "", resultAttachments := [],
    resultState := none, stagesMap := [] }

/-- `StageProcessor.close_stage_safely` applied to a tracked stage.
Modelled from the spec: `task/stage_util.py` is not under `src/`; per the spec,
closing is best-effort and never raises, so a close of an already-closed
stage is swallowed and only an open stage's close takes effect. -/
def closeStageSafely (s : TrackedStage) : TrackedStage :=
  if s.closeCount = 0 then { s with closeCount := 1 } else s

/-- Processing of one entry of `custom_content['stages']` inside
`GPAGateway.response` (gpa.py lines 109–158).  An event whose index is
already in `stages_map` updates that tracked stage (content is appended to
the choice, not the stage; attachments go to the stage; a `completed` status
closes it); an unseen index opens a new stage named after the event and
records it (content again to the choice, attachments to the new stage; the
status is not examined on this branch). -/
def processStageEvt (st : GPAState) (stg : StageEvt) : GPAState :=
  match stg.index with
  | none => st
  | some idx =>
    match lookupStage st.stagesMap idx with
    | some existing =>
      let st := match stg.content with
        | some c => { st with choiceContent := st.choiceContent ++ c }
        | none => st
      let existing := match stg.attachments with
        | some atts => { existing with attachments := existing.attachments ++ atts }
        | none => existing
      let existing := if stg.status = some "completed" then closeStageSafely existing
        else existing
      { st with stagesMap := setStage st.stagesMap idx existing }
    | none =>
      let newStage : TrackedStage := { name := stg.name, attachments := [], closeCount := 0 }
      let st := { st with stagesMap := st.stagesMap ++ [(idx, newStage)] }
      let st := match stg.content with
        | some c => { st with choiceContent := st.choiceContent ++ c }
        | none => st
      match stg.attachments with
      | some atts =>
        { st with stagesMap :=
            setStage st.stagesMap idx { newStage with attachments := newStage.attachments ++ atts } }
      | none => st

/-- The attachments block of the chunk loop (gpa.py lines 88–98): a present,
nonempty `attachments` list is appended to the result list (no
de-duplication). -/
def mergeAttachmentsDelta (st : GPAState) : Option (List Attachment) → GPAState
  | some atts =>
    if atts ≠ [] then { st with resultAttachments := st.resultAttachments ++ atts } else st
  | none => st

/-- The state block of the chunk loop (gpa.py lines 100–105): a present,
truthy `state` first ensures the result state exists (`{}` when it was
`None`) and then, only when the incoming state is a dict, shallow-merges its
keys into the result state. -/
def mergeStateDelta (st : GPAState) : Option Val → GPAState
  | some v =>
    if v.truthy then
      let base := st.resultState.getD []
      match v with
      | .vDict entries => { st with resultState := some (dictUpdate base entries) }
      | _ => { st with resultState := some base }
    else st
  | none => st

/-- The `custom_content` part of the chunk loop body (gpa.py lines 79–158):
the attachments block, then the state block, then the stage events in
order. -/
def processCC (st : GPAState) (cc : DeltaCC) : GPAState :=
  let st := mergeAttachmentsDelta st cc.attachments
  let st := mergeStateDelta st cc.state
  match cc.stages with
  | some evts => evts.foldl processStageEvt st
  | none => st

/-- The body of `async for chunk in stream` in `GPAGateway.response`
(gpa.py lines 64–158): a chunk with no choices is skipped; a truthy content
delta is appended both to the local accumulator and to the choice; then the
`custom_content` delta is merged. -/
def gpaStep (st : GPAState) (c : Chunk) : GPAState :=
  match c.choices with
  | [] => st
  | d :: _ =>
    let st := match d.content with
      | some s =>
        if s ≠ "" then
          { st with content := st.content ++ s, choiceContent := st.choiceContent ++ s }
        else st
      | none => st
    match d.custom_content with
    | some cc => processCC st cc
    | none => st

/-- Consuming the whole GPA stream from the initial state. -/
def gpaRun (chunks : List Chunk) : GPAState :=
  chunks.foldl gpaStep initGPAState

/-- Whether the collected `result_custom_content.state` is Python-truthy
(`if result_custom_content.state:`): it must exist and be a nonempty dict. -/
def truthyState : Option (List (String × Val)) → Bool
  | some (_ :: _) => true
  | _ => false

/-- The continuity marker key `_IS_GPA` of gpa.py. -/
def IS_GPA : String := "is_gpa"

/-- The snapshot key `_GPA_MESSAGES` of gpa.py. -/
def GPA_MESSAGES : String := "gpa_messages"

/-- What `GPAGateway.response` produces after the stream ends: the returned
assistant `Message`, the state written to the choice (`choice.set_state`,
gpa.py lines 160–162), and everything accumulated while streaming. -/
structure GPAResult where
  message : Msg
  choiceState : Option Val
  final : GPAState

/-- The tail of `GPAGateway.response` (gpa.py lines 160–176) applied to the
final stream state: a truthy merged state is wrapped with the GPA marker and
stored on the choice; the returned message carries the collected
`custom_content` only when attachments or state are truthy. -/
def gpaFinish (st : GPAState) : GPAResult :=
  let choiceState :=
    if truthyState st.resultState then
      some (Val.vDict [(IS_GPA, Val.vBool true),
                       (GPA_MESSAGES, Val.vDict (st.resultState.getD []))])
    else none
  let message :=
    if st.resultAttachments ≠ [] ∨ truthyState st.resultState then
      { role := Role.assistant, content := some st.content,
        custom_content := some { attachments := some st.resultAttachments,
                                 state := st.resultState.map Val.vDict } }
    else { role := Role.assistant, content := some st.content, custom_content := none }
  { message := message, choiceState := choiceState, final := st }

/-- `GPAGateway.response`'s aggregation of a whole stream. -/
def gpaResponse (chunks : List Chunk) : GPAResult :=
  gpaFinish (gpaRun chunks)

/-! ## GPA history reconstruction (`GPAGateway.__prepare_gpa_messages`) -/

/-- The GPA continuity snapshot of a message: `some snap` exactly when the
message's custom content carries a truthy dict state with `is_gpa = True`
and a `gpa_messages` entry equal to `snap`. -/
def gpaMarkerSnapshot (m : Msg) : Option Val :=
  match m.custom_content with
  | some cc =>
    match cc.state with
    | some st =>
      if st.truthy then
        match st with
        | .vDict entries =>
          match lookupKey entries IS_GPA with
          | some (.vBool true) => lookupKey entries GPA_MESSAGES
          | _ => none
        | _ => none
      else none
    | none => none
  | none => none

/-- Whether the message passes the `is_gpa` test of gpa.py lines 187–189
(truthy dict state with `is_gpa = True`), regardless of a snapshot. -/
def gpaMarkerActive (m : Msg) : Bool :=
  match m.custom_content with
  | some cc =>
    match cc.state with
    | some st =>
      if st.truthy then
        match st with
        | .vDict entries =>
          match lookupKey entries IS_GPA with
          | some (.vBool true) => true
          | _ => false
        | _ => false
      else false
    | none => false
  | none => false

/-- The assistant message reconstructed at gpa.py lines 196–205: the original
message with its side-channel state replaced by the snapshot. -/
def restoreAssistant (m : Msg) (snap : Val) : Msg :=
  let cc := m.custom_content.getD { attachments := none, state := none }
  { m with custom_content := some { cc with state := some snap } }

/-- What one history message contributes to the reconstructed list
(gpa.py lines 185–205), given the message right before it (`prev`): a
GPA-marked assistant message contributes the preceding message verbatim
(when one exists) followed by the restored assistant message (when the
marker state holds a `gpa_messages` snapshot); every other message
contributes nothing. -/
def gpaEmit (prev : Option Msg) (m : Msg) : List Msg :=
  if m.role = Role.assistant ∧ gpaMarkerActive m then
    (match prev with | some p => [p] | none => [])
      ++ (match gpaMarkerSnapshot m with
          | some snap => [restoreAssistant m snap]
          | none => [])
  else []

/-- The history-scanning loop of `__prepare_gpa_messages`, threading the
previous message (the code indexes `request.messages[idx - 1]`). -/
def gpaHistory (prev : Option Msg) : List Msg → List Msg
  | [] => []
  | m :: rest => gpaEmit prev m ++ gpaHistory (some m) rest

/-- Augmentation of the final user message with additional instructions
(gpa.py lines 212–217; identically in ums_agent.py lines 37–38). -/
def augment (m : Msg) (instr : Option String) : Msg :=
  match instr with
  | none => m
  | some i =>
    if i = "" then m
    else
      { m with content := some (match m.content with
          | some c => c ++ "\n\nAdditional instructions: " ++ i
          | none => "Additional instructions: " ++ i) }

/-- `GPAGateway.__prepare_gpa_messages` (gpa.py lines 178–221): the
reconstructed history followed by the last request message, augmented with
the additional instructions. -/
def prepareGpaMessages (msgs : List Msg) (instr : Option String) : List Msg :=
  gpaHistory none msgs
    ++ (match msgs.getLast? with
        | some last => [augment last instr]
        | none => [])

/-! ## UMS gateway (`src/task/coordination/ums_agent.py`) -/

/-- The continuity marker key `_UMS_CONVERSATION_ID` of ums_agent.py. -/
def UMS_CONVERSATION_ID : String := "ums_conversation_id"

/-- `UMSAgentGateway.__get_ums_conversation_id` (ums_agent.py lines 47–54):
the value stored under the marker in the first assistant message whose
custom content has a truthy dict state containing the marker key. -/
def getUmsConversationId : List Msg → Option Val
  | [] => none
  | m :: rest =>
    match m.custom_content with
    | some cc =>
      if m.role = Role.assistant then
        match cc.state with
        | some st =>
          if st.truthy then
            match st with
            | .vDict entries =>
              if hasKey entries UMS_CONVERSATION_ID then lookupKey entries UMS_CONVERSATION_ID
              else getUmsConversationId rest
            | _ => getUmsConversationId rest
          else getUmsConversationId rest
        | none => getUmsConversationId rest
      else getUmsConversationId rest
    | none => getUmsConversationId rest

/-- Outcome of the `POST /conversations` creation call as seen through
httpx: a 2xx response whose body yields an id, a non-2xx status (for which
`raise_for_status` raises `httpx.HTTPStatusError`), or any other transport
failure. -/
inductive CreateHttp where
  | ok (id : String)
  | httpStatusError (code : Nat)
  | transportError

/-- `UMSAgentGateway.__create_ums_conversation` (ums_agent.py lines 56–86):
a non-2xx status is caught and replaced by a locally generated UUID
(`fresh`); any other failure propagates. -/
def createUmsConversation (h : CreateHttp) (fresh : String) : Except Unit String :=
  match h with
  | .ok id => .ok id
  | .httpStatusError _ => .ok fresh
  | .transportError => .error ()

/-- The delta of one UMS stream envelope choice
(`data["choices"][0].get("delta", {})`); a missing delta or a delta without
`content` is `content := none`. -/
structure UMSDelta where
  content : Option String

/-- A parsed UMS stream envelope: whether it contains a `conversation_id`
key, and its `choices` list (missing `choices` is modelled as `[]`,
which the loop treats identically). -/
structure UMSEnvelope where
  hasConversationId : Bool
  choices : List UMSDelta

/-- One line of the server-sent event stream: the raw text together with
what `json.loads` yields on its data part (`none` when parsing raises
`JSONDecodeError`). -/
structure UMSLine where
  text : String
  parsed : Option UMSEnvelope

/-- Python `str.strip()`: remove leading and trailing whitespace. -/
def pyStrip (s : String) : String :=
  ⟨((s.data.dropWhile Char.isWhitespace).reverse.dropWhile Char.isWhitespace).reverse⟩

/-- Python `line.startswith("data: ")`. -/
def startsWithData (s : String) : Bool :=
  "data: ".data.isPrefixOf s.data

/-- Python `line[6:]`. -/
def pyDrop (s : String) (n : Nat) : String :=
  ⟨s.data.drop n⟩

/-- Stripping the `"data: "` prefix (ums_agent.py lines 117–120). -/
def stripData (line : String) : String :=
  if startsWithData line then pyDrop line 6 else line

/-- The stream-consumption loop of `UMSAgentGateway.__call_ums_agent`
(ums_agent.py lines 112–148): blank lines are skipped, a stripped data part
equal to `[DONE]` stops consumption, unparsable envelopes and envelopes
carrying `conversation_id` are skipped, and each delta `content` is appended
to the accumulator (and forwarded to the choice). -/
def processUMSLines : List UMSLine → String → String
  | [], acc => acc
  | l :: rest, acc =>
    if pyStrip l.text = "" then processUMSLines rest acc
    else
      let dataStr := stripData l.text
      if pyStrip dataStr = "[DONE]" then acc
      else
        match l.parsed with
        | none => processUMSLines rest acc
        | some env =>
          if env.hasConversationId then processUMSLines rest acc
          else
            match env.choices.head? with
            | none => processUMSLines rest acc
            | some d =>
              match d.content with
              | some chunk => processUMSLines rest (acc ++ chunk)
              | none => processUMSLines rest acc

/-- Outcome of the `POST /conversations/{id}/chat` call: a 2xx response with
its event-stream lines, or a failure (`raise_for_status` on this call is not
caught, so both non-2xx statuses and transport errors propagate). -/
inductive ChatHttp where
  | ok (lines : List UMSLine)
  | failed

/-- `UMSAgentGateway.__call_ums_agent` (ums_agent.py lines 88–155): on a
successful chat response, the accumulated stream content. -/
def callUmsAgent (chat : ChatHttp) : Except Unit String :=
  match chat with
  | .ok lines => .ok (processUMSLines lines "")
  | .failed => .error ()

/-- What `UMSAgentGateway.response` produces: the returned message, the
state written to the choice (only on the creation path, ums_agent.py
lines 28–31), whether the creation call was issued, and the conversation id
used for the chat call. -/
structure UMSResult where
  message : Msg
  choiceState : Option Val
  creationCalled : Bool
  chatConversationId : Val

/-- `UMSAgentGateway.response` (ums_agent.py lines 17–44): a falsy recovered
conversation id (`if not conversation_id:`) triggers the creation call and
stores the created id in the choice state; the chat call then streams the
reply, and the returned message is a plain assistant message with the
accumulated content. -/
def umsResponse (msgs : List Msg) (create : CreateHttp) (fresh : String)
    (chat : ChatHttp) : Except Unit UMSResult :=
  let found := getUmsConversationId msgs
  if optTruthy found then
    match callUmsAgent chat with
    | .ok content =>
      .ok { message := { role := Role.assistant, content := some content,
                         custom_content := none },
            choiceState := none, creationCalled := false,
            chatConversationId := found.getD (Val.vStr "") }
    | .error _ => .error ()
  else
    match createUmsConversation create fresh with
    | .ok cid =>
      match callUmsAgent chat with
      | .ok content =>
        .ok { message := { role := Role.assistant, content := some content,
                           custom_content := none },
              choiceState := some (Val.vDict [(UMS_CONVERSATION_ID, Val.vStr cid)]),
              creationCalled := true,
              chatConversationId := Val.vStr cid }
      | .error _ => .error ()
    | .error _ => .error ()

/-! ## Coordinator (`src/task/agent.py`) -/

/-- Modelled from the spec: `task/models.py` is not under `src/`; per the
spec the routing decision's `agentKind` ranges over exactly `UMS` and
`GPA`. -/
inductive AgentName where
  | UMS | GPA
deriving DecidableEq

/-- Modelled from the spec: the label of an agent kind as it appears in the
output-section name (`f"{coordination_request.agent_name} Agent Response"`);
per the spec the section is named for the routed agent kind,
`"UMS"` or `"GPA"`. -/
def AgentName.label : AgentName → String
  | .UMS => "UMS"
  | .GPA => "GPA"

/-- Modelled from the spec: `CoordinationRequest` of `task/models.py`
(not under `src/`) — the routing decision `{agentKind, additionalInstructions}`. -/
structure CoordinationRequest where
  agent_name : AgentName
  additional_instructions : Option String

/-- An observable action of `MASCoordinator.handle_request` on the output
channel: opening a section, a (best-effort) close of a section, or the
invocation of a backend gateway. -/
inductive TurnEvt where
  | openStage (name : String)
  | closeStage (name : String)
  | invokeGateway (agent : AgentName)
deriving DecidableEq

/-- `MASCoordinator.handle_request` (agent.py lines 27–68) with the routing
call and the gateway call abstracted as outcomes: the emitted trace of
output-channel events and the overall result.  The coordination stage is
opened first; a routing failure closes it and re-raises; on success it is
closed, the agent stage is opened, exactly one gateway (per
`__handle_coordination_request`, agent.py lines 117–148) is invoked, and the
agent stage is closed in a `finally`; a gateway failure additionally
triggers the outer `except`, which closes the (already closed) coordination
stage again before re-raising. -/
def handleRequest (routing : Except Unit CoordinationRequest)
    (gw : AgentName → Except Unit Msg) : List TurnEvt × Except Unit Msg :=
  let coordName := "Coordination Request"
  match routing with
  | .error _ => ([.openStage coordName, .closeStage coordName], .error ())
  | .ok cr =>
    let agentSection := cr.agent_name.label ++ " Agent Response"
    match gw cr.agent_name with
    | .ok m =>
      ([.openStage coordName, .closeStage coordName, .openStage agentSection,
        .invokeGateway cr.agent_name, .closeStage agentSection], .ok m)
    | .error _ =>
      ([.openStage coordName, .closeStage coordName, .openStage agentSection,
        .invokeGateway cr.agent_name, .closeStage agentSection,
        .closeStage coordName], .error ())

/-- The multiset of currently open sections after one event: opening pushes
the section, a best-effort close removes it when present and is a no-op
otherwise (`close_stage_safely`, modelled from the spec: closing never
raises). -/
def stagesStep (openSections : List String) (e : TurnEvt) : List String :=
  match e with
  | .openStage n => n :: openSections
  | .closeStage n => openSections.erase n
  | .invokeGateway _ => openSections

/-- The largest number of simultaneously open sections over every prefix of
the trace. -/
def maxOpen (trace : List TurnEvt) : Nat :=
  (trace.foldl (fun acc e =>
    let l := stagesStep acc.1 e
    (l, max acc.2 l.length)) ([], 0)).2

/-- Whether the event is a gateway invocation. -/
def isInvoke : TurnEvt → Bool
  | .invokeGateway _ => true
  | _ => false

/-! ## Derived notions used by the statements -/

/-- Left-biased choice on options (used to state last-writer-wins). -/
def orO {α : Type} : Option α → Option α → Option α
  | some v, _ => some v
  | none, b => b

/-- The content deltas of a GPA stream, in arrival order (the `delta.content`
of each chunk that has a first choice). -/
def contentDeltas (chunks : List Chunk) : List String :=
  chunks.filterMap fun c => (c.choices.head?).bind fun d => d.content

/-- The values the chunk's state delta writes to key `k`, in order (only a
dict-shaped state writes anything). -/
def chunkWrites (k : String) (c : Chunk) : List Val :=
  match c.choices.head? with
  | some d =>
    match d.custom_content with
    | some cc =>
      match cc.state with
      | some (.vDict entries) => (entries.filter fun p => p.1 = k).map Prod.snd
      | _ => []
    | none => []
  | none => []

/-- All values written to key `k` over the stream, in arrival order. -/
def stateWrites (chunks : List Chunk) (k : String) : List Val :=
  chunks.flatMap (chunkWrites k)

/-- Lookup of a key in the merged result state. -/
def lookupState (st : Option (List (String × Val))) (k : String) : Option Val :=
  st.bind fun d => lookupKey d k

/-- The per-message UMS marker test of `__get_ums_conversation_id`: the
value under the marker when the message is an assistant message with a
truthy dict state containing the marker key. -/
def umsMarkerOf (m : Msg) : Option Val :=
  match m.custom_content with
  | some cc =>
    if m.role = Role.assistant then
      match cc.state with
      | some st =>
        if st.truthy then
          match st with
          | .vDict entries =>
            if hasKey entries UMS_CONVERSATION_ID then lookupKey entries UMS_CONVERSATION_ID
            else none
          | _ => none
        else none
      | none => none
    else none
  | none => none

/-! ## Concrete inputs used by witnesses and counterexamples -/

/-- A chunk carrying only a content delta. -/
def contentChunk (s : String) : Chunk :=
  { choices := [{ content := some s, custom_content := none }] }

/-- A chunk carrying only a state delta. -/
def stateChunk (d : List (String × Val)) : Chunk :=
  { choices := [{ content := none, custom_content := some { attachments := none, state := some (Val.vDict d), stages := none } }] }

/-- A chunk carrying a single stage event. -/
def stageChunk (e : StageEvt) : Chunk :=
  { choices := [{ content := none, custom_content := some { attachments := none, state := none, stages := some [e] } }] }

/-- The event sequence of the claim:
`[content:"A", state:{k:1}, content:"B", state:{k:2}]`. -/
def exampleStream : List Chunk :=
  [contentChunk "A", stateChunk [("k", Val.vNat 1)],
   contentChunk "B", stateChunk [("k", Val.vNat 2)]]

/-- Stage scenario: a create event for index 0. -/
def evCreate : StageEvt :=
  { index := some 0, name := some "s", content := none, attachments := none, status := none }

/-- Stage scenario: a completing event for index 0 with one attachment. -/
def evComplete : StageEvt :=
  { index := some 0, name := none, content := none, attachments := some [⟨"att"⟩], status := some "completed" }

/-- Stage scenario: a create event for the unseen index 1. -/
def evThird : StageEvt :=
  { index := some 1, name := some "t", content := none, attachments := none, status := none }

/-- A first (index unseen) stage event that already carries
`status = "completed"`. -/
def evFirstCompleted : StageEvt :=
  { index := some 0, name := some "s", content := none, attachments := none, status := some "completed" }

/-- An assistant message carrying a UMS conversation id under the marker. -/
def umsAssistant (id : String) : Msg :=
  { role := Role.assistant, content := some "prev", custom_content := some { attachments := none, state := some (Val.vDict [(UMS_CONVERSATION_ID, Val.vStr id)]) } }

/-- A plain user message. -/
def userMsg (s : String) : Msg :=
  { role := Role.user, content := some s, custom_content := none }

/-- A plain system message. -/
def sysMsg : Msg :=
  { role := Role.system, content := some "sys", custom_content := none }

/-- An assistant message carrying the GPA continuity marker and a snapshot. -/
def gpaAssistant : Msg :=
  { role := Role.assistant, content := some "ans", custom_content := some { attachments := none, state := some (Val.vDict [(IS_GPA, Val.vBool true), (GPA_MESSAGES, Val.vDict [("m", Val.vStr "x")])]) } }

/-- A simple stream line carrying one content delta. -/
def lineContent (s : String) : UMSLine :=
  { text := "data: x", parsed := some { hasConversationId := false, choices := [{ content := some s }] } }

/-- The literal termination line. -/
def lineDone : UMSLine :=
  { text := "data: [DONE]", parsed := none }

/-- An unparsable line. -/
def lineBad : UMSLine :=
  { text := "garbage", parsed := none }

/-- A parsable envelope carrying a `conversation_id` key. -/
def lineConvId : UMSLine :=
  { text := "data: c", parsed := some { hasConversationId := true, choices := [{ content := some "Z" }] } }

/-- Concatenation of a list of strings, in order. -/
def concatAll : List String → String
  | [] => ""
  | s :: rest => s ++ concatAll rest

/-- Whether the UMS gateway issued the creation call, observed through the
turn's outcome. -/
def creationCalledOf : Except Unit UMSResult → Option Bool
  | .ok r => some r.creationCalled
  | .error _ => none

/-- The conversation id used for the chat call, observed through the turn's
outcome. -/
def chatIdOf : Except Unit UMSResult → Option Val
  | .ok r => some r.chatConversationId
  | .error _ => none

/-! ## Dictionary lemmas -/

theorem orO_none_right {α : Type} (a : Option α) : orO a none = a := by
  cases a <;> rfl

theorem orO_assoc {α : Type} (a b c : Option α) :
    orO (orO a b) c = orO a (orO b c) := by
  cases a <;> rfl

theorem getLast?_cons_orO {α : Type} (v : α) (l : List α) :
    (v :: l).getLast? = orO l.getLast? (some v) := by
  cases l with
  | nil => rfl
  | cons x xs =>
    rw [List.getLast?_cons_cons]
    have h : (x :: xs).getLast?.isSome := by
      rw [List.getLast?_isSome]; simp
    obtain ⟨y, hy⟩ := Option.isSome_iff_exists.mp h
    rw [hy]; rfl

theorem getLast?_append_orO {α : Type} (l₁ l₂ : List α) :
    (l₁ ++ l₂).getLast? = orO l₂.getLast? l₁.getLast? := by
  induction l₁ with
  | nil => simp [orO_none_right]
  | cons x xs ih =>
    rw [List.cons_append, getLast?_cons_orO, ih, getLast?_cons_orO, orO_assoc]

theorem lookupKey_nil (k : String) : lookupKey [] k = none := rfl

theorem lookupKey_cons (p : String × Val) (d : List (String × Val)) (k : String) :
    lookupKey (p :: d) k = if p.1 = k then some p.2 else lookupKey d k := by
  simp only [lookupKey, List.find?_cons]
  by_cases h : p.1 = k
  · simp [h]
  · simp [h]

theorem lookupKey_append (d₁ d₂ : List (String × Val)) (k : String) :
    lookupKey (d₁ ++ d₂) k = orO (lookupKey d₁ k) (lookupKey d₂ k) := by
  induction d₁ with
  | nil => simp [lookupKey_nil, orO]
  | cons p rest ih =>
    rw [List.cons_append, lookupKey_cons, lookupKey_cons]
    by_cases h : p.1 = k
    · simp [h, orO]
    · simp [h, ih]

theorem lookupKey_none_of_not_any (d : List (String × Val)) (k : String)
    (h : d.any (fun p => p.1 = k) = false) : lookupKey d k = none := by
  induction d with
  | nil => rfl
  | cons p rest ih =>
    simp only [List.any_cons, Bool.or_eq_false_iff] at h
    rw [lookupKey_cons]
    have hp : ¬ p.1 = k := by
      intro hk; rw [hk] at h; simp at h
    simp [hp, ih h.2]

theorem lookupKey_overwrite_ne (d : List (String × Val)) (k k' : String) (v : Val)
    (h : k' ≠ k) :
    lookupKey (d.map fun p => if p.1 = k then (k, v) else p) k' = lookupKey d k' := by
  induction d with
  | nil => rfl
  | cons p rest ih =>
    rw [List.map_cons, lookupKey_cons, lookupKey_cons]
    by_cases hp : p.1 = k
    · simp only [hp, if_pos rfl]
      have : ¬ (k = k') := fun hk => h hk.symm
      have hp' : ¬ (p.1 = k') := by rw [hp]; exact this
      simp [this, hp', ih]
    · simp only [if_neg hp]
      by_cases hq : p.1 = k'
      · simp [hq]
      · simp [hq, ih]

theorem lookupKey_overwrite_eq (d : List (String × Val)) (k : String) (v : Val)
    (h : d.any (fun p => p.1 = k) = true) :
    lookupKey (d.map fun p => if p.1 = k then (k, v) else p) k = some v := by
  induction d with
  | nil => simp at h
  | cons p rest ih =>
    rw [List.map_cons, lookupKey_cons]
    by_cases hp : p.1 = k
    · simp [hp]
    · simp only [if_neg hp]
      apply ih
      simp only [List.any_cons, Bool.or_eq_true_iff] at h
      rcases h with h | h
      · exfalso; exact hp (by simpa using h)
      · exact h

theorem lookupKey_setKey (d : List (String × Val)) (k : String) (v : Val) (k' : String) :
    lookupKey (setKey d k v) k' = if k' = k then some v else lookupKey d k' := by
  unfold setKey
  by_cases hany : d.any (fun p => p.1 = k) = true
  · rw [if_pos hany]
    by_cases h : k' = k
    · subst h; rw [if_pos rfl, lookupKey_overwrite_eq d k' v hany]
    · rw [if_neg h, lookupKey_overwrite_ne d k k' v h]
  · have hany' : d.any (fun p => p.1 = k) = false := by
      cases hd : d.any (fun p => p.1 = k)
      · rfl
      · exact absurd hd hany
    rw [if_neg (by simp [hany'])]
    rw [lookupKey_append]
    by_cases h : k' = k
    · subst h
      rw [lookupKey_none_of_not_any d k' hany']
      simp [lookupKey_cons, orO]
    · rw [if_neg h]
      have hne : ¬ (k = k') := fun hk => h hk.symm
      have : lookupKey [(k, v)] k' = none := by
        rw [lookupKey_cons]
        simp [hne, lookupKey_nil]
      rw [this, orO_none_right]

theorem lookupKey_dictUpdate (d entries : List (String × Val)) (k : String) :
    lookupKey (dictUpdate d entries) k
      = orO (((entries.filter fun p => p.1 = k).map Prod.snd).getLast?) (lookupKey d k) := by
  induction entries generalizing d with
  | nil => simp [dictUpdate, orO]
  | cons p rest ih =>
    have hstep : dictUpdate d (p :: rest) = dictUpdate (setKey d p.1 p.2) rest := rfl
    rw [hstep, ih, lookupKey_setKey]
    by_cases h : p.1 = k
    · have hk : k = p.1 := h.symm
      rw [if_pos hk]
      have hf : (p :: rest).filter (fun q => q.1 = k) = p :: rest.filter (fun q => q.1 = k) := by
        simp [List.filter_cons, h]
      rw [hf, List.map_cons, getLast?_cons_orO, orO_assoc]
      simp [orO]
    · have hk : ¬ (k = p.1) := fun hk => h hk.symm
      rw [if_neg hk]
      have hf : (p :: rest).filter (fun q => q.1 = k) = rest.filter (fun q => q.1 = k) := by
        simp [List.filter_cons, h]
      rw [hf]

/-! ## GPA stream-merge lemmas -/

theorem processStageEvt_content (st : GPAState) (e : StageEvt) :
    (processStageEvt st e).content = st.content := by
  rcases e with ⟨idx, name, cont, atts, status⟩
  cases idx with
  | none => rfl
  | some i =>
    dsimp only [processStageEvt]
    cases lookupStage st.stagesMap i <;> cases cont <;> cases atts <;>
      dsimp only <;> split_ifs <;> rfl

theorem processStageEvt_resultState (st : GPAState) (e : StageEvt) :
    (processStageEvt st e).resultState = st.resultState := by
  rcases e with ⟨idx, name, cont, atts, status⟩
  cases idx with
  | none => rfl
  | some i =>
    dsimp only [processStageEvt]
    cases lookupStage st.stagesMap i <;> cases cont <;> cases atts <;>
      dsimp only <;> split_ifs <;> rfl

theorem stageFold_content (evts : List StageEvt) (st : GPAState) :
    (evts.foldl processStageEvt st).content = st.content := by
  induction evts generalizing st with
  | nil => rfl
  | cons e rest ih => rw [List.foldl_cons, ih, processStageEvt_content]

theorem stageFold_resultState (evts : List StageEvt) (st : GPAState) :
    (evts.foldl processStageEvt st).resultState = st.resultState := by
  induction evts generalizing st with
  | nil => rfl
  | cons e rest ih => rw [List.foldl_cons, ih, processStageEvt_resultState]

theorem mergeAttachmentsDelta_content (st : GPAState) (a : Option (List Attachment)) :
    (mergeAttachmentsDelta st a).content = st.content := by
  cases a with
  | none => rfl
  | some l => dsimp only [mergeAttachmentsDelta]; split_ifs <;> rfl

theorem mergeAttachmentsDelta_resultState (st : GPAState) (a : Option (List Attachment)) :
    (mergeAttachmentsDelta st a).resultState = st.resultState := by
  cases a with
  | none => rfl
  | some l => dsimp only [mergeAttachmentsDelta]; split_ifs <;> rfl

theorem mergeStateDelta_content (st : GPAState) (v : Option Val) :
    (mergeStateDelta st v).content = st.content := by
  cases v with
  | none => rfl
  | some v =>
    dsimp only [mergeStateDelta]
    split_ifs
    · cases v <;> rfl
    · rfl

theorem processCC_content (st : GPAState) (cc : DeltaCC) :
    (processCC st cc).content = st.content := by
  rcases cc with ⟨atts, stv, stgs⟩
  dsimp only [processCC]
  cases stgs with
  | some evts =>
    rw [stageFold_content, mergeStateDelta_content, mergeAttachmentsDelta_content]
  | none =>
    rw [mergeStateDelta_content, mergeAttachmentsDelta_content]

theorem gpaStep_content (st : GPAState) (c : Chunk) :
    (gpaStep st c).content
      = st.content ++ (match c.choices.head? with
          | some d => d.content.getD ""
          | none => "") := by
  rcases c with ⟨choices⟩
  cases choices with
  | nil => simp [gpaStep, String.append_empty]
  | cons d rest =>
    rcases d with ⟨cont, ccd⟩
    dsimp only [gpaStep, List.head?]
    cases ccd with
    | some cc =>
      rw [processCC_content]
      cases cont with
      | some s =>
        by_cases h : s = ""
        · subst h; simp [String.append_empty]
        · simp [h]
      | none => simp [String.append_empty]
    | none =>
      cases cont with
      | some s =>
        by_cases h : s = ""
        · subst h; simp [String.append_empty]
        · simp [h]
      | none => simp [String.append_empty]

theorem contentDeltas_cons (c : Chunk) (rest : List Chunk) :
    contentDeltas (c :: rest)
      = (match c.choices.head? with
          | some d => match d.content with
            | some s => s :: contentDeltas rest
            | none => contentDeltas rest
          | none => contentDeltas rest) := by
  dsimp only [contentDeltas, List.filterMap_cons]
  cases hh : c.choices.head? with
  | none => rfl
  | some d =>
    dsimp only [Option.bind]
    cases hc : d.content with
    | none => rfl
    | some s => rfl

theorem gpaFold_content (chunks : List Chunk) (st : GPAState) :
    (chunks.foldl gpaStep st).content = st.content ++ concatAll (contentDeltas chunks) := by
  induction chunks generalizing st with
  | nil => simp [contentDeltas, concatAll, String.append_empty]
  | cons c rest ih =>
    rw [List.foldl_cons, ih, gpaStep_content, contentDeltas_cons]
    cases hh : c.choices.head? with
    | none => simp [String.append_empty]
    | some d =>
      cases hc : d.content with
      | none => simp [hc, String.append_empty]
      | some s => simp [hc, concatAll, String.append_assoc]

theorem lookupState_getD (st : Option (List (String × Val))) (k : String) :
    lookupKey (st.getD []) k = lookupState st k := by
  cases st <;> rfl

/-- The values a state delta writes to key `k`. -/
def stateDeltaWrites (v : Option Val) (k : String) : Option Val :=
  match v with
  | some (.vDict entries) => ((entries.filter fun p => p.1 = k).map Prod.snd).getLast?
  | _ => none

theorem mergeStateDelta_lookup (st : GPAState) (v : Option Val) (k : String) :
    lookupState (mergeStateDelta st v).resultState k
      = orO (stateDeltaWrites v k) (lookupState st.resultState k) := by
  cases v with
  | none => simp [mergeStateDelta, stateDeltaWrites, orO]
  | some v =>
    cases v with
    | vDict entries =>
      cases entries with
      | nil =>
        dsimp only [mergeStateDelta, Val.truthy]
        simp [stateDeltaWrites, orO, List.filter_nil]
      | cons p ps =>
        dsimp only [mergeStateDelta, Val.truthy]
        simp only [List.isEmpty_cons, Bool.not_false, if_pos]
        dsimp only [lookupState, Option.bind, stateDeltaWrites]
        rw [lookupKey_dictUpdate, lookupState_getD]
        rfl
    | vStr s =>
      by_cases h : s = ""
      · subst h; simp [mergeStateDelta, Val.truthy, stateDeltaWrites, orO]
      · dsimp only [mergeStateDelta, Val.truthy]
        simp only [bne_iff_ne, ne_eq, h, not_false_eq_true, if_pos]
        dsimp only [lookupState, Option.bind, stateDeltaWrites]
        rw [lookupState_getD]
        dsimp only [lookupState, orO]
        cases st.resultState <;> rfl
    | vBool b =>
      cases b with
      | false => simp [mergeStateDelta, Val.truthy, stateDeltaWrites, orO]
      | true =>
        dsimp only [mergeStateDelta, Val.truthy]
        simp only [if_pos]
        dsimp only [lookupState, Option.bind, stateDeltaWrites]
        rw [lookupState_getD]
        dsimp only [lookupState, orO]
        cases st.resultState <;> rfl
    | vNat n =>
      by_cases h : n = 0
      · subst h; simp [mergeStateDelta, Val.truthy, stateDeltaWrites, orO]
      · dsimp only [mergeStateDelta, Val.truthy]
        simp only [bne_iff_ne, ne_eq, h, not_false_eq_true, if_pos]
        dsimp only [lookupState, Option.bind, stateDeltaWrites]
        rw [lookupState_getD]
        dsimp only [lookupState, orO]
        cases st.resultState <;> rfl

theorem processCC_state (st : GPAState) (cc : DeltaCC) (k : String) :
    lookupState (processCC st cc).resultState k
      = orO (stateDeltaWrites cc.state k) (lookupState st.resultState k) := by
  rcases cc with ⟨atts, stv, stgs⟩
  dsimp only [processCC]
  have hstage : ∀ s : GPAState,
      lookupState (match stgs with
        | some evts => evts.foldl processStageEvt s
        | none => s).resultState k = lookupState s.resultState k := by
    intro s; cases stgs with
    | some evts => rw [stageFold_resultState]
    | none => rfl
  rw [hstage, mergeStateDelta_lookup, mergeAttachmentsDelta_resultState]

theorem chunkWrites_getLast (c : Chunk) (k : String) :
    (chunkWrites k c).getLast?
      = (match c.choices.head? with
          | some d => match d.custom_content with
            | some cc => stateDeltaWrites cc.state k
            | none => none
          | none => none) := by
  rcases c with ⟨choices⟩
  cases choices with
  | nil => rfl
  | cons d rest =>
    rcases d with ⟨cont, ccd⟩
    cases ccd with
    | none => rfl
    | some cc =>
      rcases cc with ⟨a, s, g⟩
      cases s with
      | none => rfl
      | some v => cases v <;> rfl

theorem gpaStep_state (st : GPAState) (c : Chunk) (k : String) :
    lookupState (gpaStep st c).resultState k
      = orO ((chunkWrites k c).getLast?) (lookupState st.resultState k) := by
  rcases c with ⟨choices⟩
  cases choices with
  | nil => simp [gpaStep, chunkWrites, orO]
  | cons d rest =>
    rcases d with ⟨cont, ccd⟩
    dsimp only [gpaStep, List.head?]
    rw [chunkWrites_getLast]
    have hcont : ∀ s : GPAState,
        (match cont with
          | some str =>
            if str ≠ "" then
              { s with content := s.content ++ str, choiceContent := s.choiceContent ++ str }
            else s
          | none => s).resultState = s.resultState := by
      intro s; cases cont with
      | some str => dsimp only; split_ifs <;> rfl
      | none => rfl
    cases ccd with
    | some cc =>
      rw [processCC_state]
      dsimp only [List.head?]
      congr 1
      dsimp only [lookupState]
      rw [hcont]
    | none =>
      dsimp only [List.head?, orO]
      dsimp only [lookupState]
      rw [hcont]

theorem gpaFold_state (chunks : List Chunk) (st : GPAState) (k : String) :
    lookupState ((chunks.foldl gpaStep st).resultState) k
      = orO ((stateWrites chunks k).getLast?) (lookupState st.resultState k) := by
  induction chunks generalizing st with
  | nil => simp [stateWrites, orO]
  | cons c rest ih =>
    rw [List.foldl_cons, ih, gpaStep_state]
    have hw : stateWrites (c :: rest) k = chunkWrites k c ++ stateWrites rest k := rfl
    rw [hw, getLast?_append_orO, orO_assoc]

/-- C1: `GPAGateway.response` merges GPA stream events in arrival order
without reordering: the final content is the concatenation of all content
deltas in the order received, the merged result state maps each key to the
value written by the last state delta carrying that key, and the event
sequence `[content:"A", state:{k:1}, content:"B", state:{k:2}]` yields final
content `"AB"` and final state `{k: 2}`. -/
theorem gpa_stream_merge_order_preserving (chunks : List Chunk) (k : String) :
    (gpaRun chunks).content = concatAll (contentDeltas chunks)
    ∧ (gpaResponse chunks).message.content = some (concatAll (contentDeltas chunks))
    ∧ lookupState (gpaRun chunks).resultState k = (stateWrites chunks k).getLast?
    ∧ (gpaRun exampleStream).content = "AB"
    ∧ lookupState (gpaRun exampleStream).resultState "k" = some (Val.vNat 2) := by
  have hc : (gpaRun chunks).content = concatAll (contentDeltas chunks) := by
    rw [gpaRun, gpaFold_content]
    exact String.empty_append _
  refine ⟨hc, ?_, ?_, rfl, rfl⟩
  · dsimp only [gpaResponse, gpaFinish]
    split_ifs <;> (dsimp only; rw [hc])
  · rw [gpaRun, gpaFold_state]
    exact orO_none_right _

/-! ## Stage-tracking lemmas -/

theorem lookupStage_cons (p : Nat × TrackedStage) (m : List (Nat × TrackedStage)) (i : Nat) :
    lookupStage (p :: m) i = if p.1 = i then some p.2 else lookupStage m i := by
  simp only [lookupStage, List.find?_cons]
  by_cases h : p.1 = i
  · simp [h]
  · simp [h]

theorem setStage_fresh (m : List (Nat × TrackedStage)) (i : Nat) (s s' : TrackedStage)
    (h : lookupStage m i = none) :
    setStage (m ++ [(i, s)]) i s' = m ++ [(i, s')] := by
  induction m with
  | nil => simp [setStage]
  | cons p rest ih =>
    rw [lookupStage_cons] at h
    by_cases hp : p.1 = i
    · rw [if_pos hp] at h; cases h
    · rw [if_neg hp] at h
      simp only [List.cons_append, setStage, List.map_cons]
      rw [if_neg hp]
      have := ih h
      simp only [setStage] at this
      rw [this]

theorem lookupStage_setStage (m : List (Nat × TrackedStage)) (i : Nat)
    (ex s' : TrackedStage) (h : lookupStage m i = some ex) :
    lookupStage (setStage m i s') i = some s' := by
  induction m with
  | nil => simp [lookupStage] at h
  | cons p rest ih =>
    rw [lookupStage_cons] at h
    simp only [setStage, List.map_cons]
    by_cases hp : p.1 = i
    · rw [if_pos hp, lookupStage_cons, if_pos rfl]
    · rw [if_neg hp] at h
      rw [if_neg hp, lookupStage_cons, if_neg hp]
      have := ih h
      simp only [setStage] at this
      rw [this]

theorem setStage_keys (m : List (Nat × TrackedStage)) (i : Nat) (s : TrackedStage) :
    (setStage m i s).map Prod.fst = m.map Prod.fst := by
  induction m with
  | nil => rfl
  | cons p rest ih =>
    simp only [setStage, List.map_cons] at ih ⊢
    by_cases hp : p.1 = i
    · rw [if_pos hp, ih]
      simp [hp]
    · rw [if_neg hp, ih]

theorem processStageEvt_unseen (st : GPAState) (e : StageEvt) (i : Nat)
    (hi : e.index = some i) (h : lookupStage st.stagesMap i = none) :
    (processStageEvt st e).stagesMap
      = st.stagesMap
          ++ [(i, { name := e.name, attachments := e.attachments.getD [], closeCount := 0 })] := by
  rcases e with ⟨idx, name, cont, atts, status⟩
  cases hi
  dsimp only [processStageEvt]
  rw [h]
  cases cont <;> cases atts <;> dsimp only
  · rfl
  · rename_i l
    rw [setStage_fresh st.stagesMap i _ _ h]
    simp
  · rfl
  · rename_i l s
    rw [setStage_fresh st.stagesMap i _ _ h]
    simp

theorem processStageEvt_seen (st : GPAState) (e : StageEvt) (i : Nat) (ex : TrackedStage)
    (hi : e.index = some i) (h : lookupStage st.stagesMap i = some ex) :
    lookupStage (processStageEvt st e).stagesMap i
      = some { name := ex.name,
               attachments := ex.attachments ++ e.attachments.getD [],
               closeCount :=
                 if e.status = some "completed" then
                   (if ex.closeCount = 0 then 1 else ex.closeCount)
                 else ex.closeCount }
    ∧ (processStageEvt st e).stagesMap.map Prod.fst = st.stagesMap.map Prod.fst := by
  rcases e with ⟨idx, name, cont, atts, status⟩
  cases hi
  dsimp only [processStageEvt]
  rw [h]
  cases cont <;> cases atts <;> dsimp only <;>
    constructor <;>
    first
      | (rw [setStage_keys])
      | (rw [lookupStage_setStage st.stagesMap i ex _ h]
         dsimp only [closeStageSafely]
         split_ifs <;> simp_all)

theorem processStageEvt_choice (st : GPAState) (e : StageEvt) (i : Nat)
    (hi : e.index = some i) :
    (processStageEvt st e).choiceContent = st.choiceContent ++ e.content.getD "" := by
  rcases e with ⟨idx, name, cont, atts, status⟩
  cases hi
  dsimp only [processStageEvt]
  cases lookupStage st.stagesMap i <;> cases cont <;> cases atts <;>
    dsimp only <;> simp [String.append_empty]

/-- C2 (amended): stage events are tracked by index within one response: an
event with an unseen index opens a new tracked section named after the event
(recording it in the map, with the event's attachments and not yet closed —
the status is not examined on this branch); an event with a seen index is
applied to that same tracked section, appending its attachments, and a
`completed` status closes it at most once; any content carried by a stage
event is appended to the overall output sink; the scenario
create / complete-with-attachment / new-index yields one section with one
attachment closed exactly once plus a second independent section. -/
theorem gpa_stage_tracking (st : GPAState) (e : StageEvt) (i : Nat) (ex : TrackedStage) :
    (e.index = some i → lookupStage st.stagesMap i = none →
      (processStageEvt st e).stagesMap
        = st.stagesMap
            ++ [(i, { name := e.name, attachments := e.attachments.getD [], closeCount := 0 })])
    ∧ (e.index = some i → lookupStage st.stagesMap i = some ex →
      lookupStage (processStageEvt st e).stagesMap i
        = some { name := ex.name,
                 attachments := ex.attachments ++ e.attachments.getD [],
                 closeCount :=
                   if e.status = some "completed" then
                     (if ex.closeCount = 0 then 1 else ex.closeCount)
                   else ex.closeCount }
      ∧ (processStageEvt st e).stagesMap.map Prod.fst = st.stagesMap.map Prod.fst)
    ∧ (e.index = some i →
      (processStageEvt st e).choiceContent = st.choiceContent ++ e.content.getD "")
    ∧ (gpaRun [stageChunk evCreate, stageChunk evComplete, stageChunk evThird]).stagesMap
        = [(0, { name := some "s", attachments := [⟨"att"⟩], closeCount := 1 }),
           (1, { name := some "t", attachments := [], closeCount := 0 })] :=
  ⟨fun hi h => processStageEvt_unseen st e i hi h,
   fun hi h => processStageEvt_seen st e i ex hi h,
   fun hi => processStageEvt_choice st e i hi,
   rfl⟩

/-- C2 counterexample: a stage event whose index is unseen and that already
carries `status = "completed"` opens the section but does not close it
(`closeCount` stays 0), contradicting the claim that a `completed` status
closes the section. -/
theorem gpa_stage_first_completed_not_closed :
    evFirstCompleted.status = some "completed"
    ∧ (gpaRun [stageChunk evFirstCompleted]).stagesMap
        = [(0, { name := some "s", attachments := [], closeCount := 0 })] :=
  ⟨rfl, rfl⟩

/-- Witness for the stage-tracking theorem at concrete inputs. -/
theorem gpa_stage_tracking_witness :
    ((processStageEvt initGPAState evCreate).stagesMap
        = [(0, { name := some "s", attachments := [], closeCount := 0 })])
    ∧ (lookupStage
         (processStageEvt (gpaRun [stageChunk evCreate]) evComplete).stagesMap 0
        = some { name := some "s", attachments := [⟨"att"⟩], closeCount := 1 })
    ∧ ((processStageEvt initGPAState evCreate).choiceContent = "") := by
  refine ⟨?_, ?_, ?_⟩
  · exact (gpa_stage_tracking initGPAState evCreate 0 ⟨none, [], 0⟩).1 rfl rfl
  · have h := ((gpa_stage_tracking (gpaRun [stageChunk evCreate]) evComplete 0
      { name := some "s", attachments := [], closeCount := 0 }).2.1 rfl rfl).1
    exact h
  · exact (gpa_stage_tracking initGPAState evCreate 0 ⟨none, [], 0⟩).2.2.1 rfl

/-! ## History-reconstruction lemmas -/

theorem getLast?_cons_getLastD {α : Type} (a : α) (l : List α) :
    (a :: l).getLast? = some (l.getLastD a) := by
  induction l generalizing a with
  | nil => rfl
  | cons x xs ih =>
    rw [List.getLast?_cons_cons, ih, List.getLastD_cons]

theorem gpaHistory_append (xs ys : List Msg) (prev : Option Msg) :
    gpaHistory prev (xs ++ ys)
      = gpaHistory prev xs ++ gpaHistory (orO xs.getLast? prev) ys := by
  induction xs generalizing prev with
  | nil => rfl
  | cons x rest ih =>
    show gpaEmit prev x ++ gpaHistory (some x) (rest ++ ys) = _
    rw [ih (some x), getLast?_cons_orO, orO_assoc]
    show _ = (gpaEmit prev x ++ gpaHistory (some x) rest)
      ++ gpaHistory (orO rest.getLast? (orO (some x) prev)) ys
    rw [List.append_assoc]
    rfl

theorem gpaMarkerActive_of_snapshot (m : Msg) (snap : Val)
    (h : gpaMarkerSnapshot m = some snap) : gpaMarkerActive m = true := by
  rcases m with ⟨r, c, cc⟩
  cases cc with
  | none => exact Option.noConfusion h
  | some c' =>
    rcases c' with ⟨att, stt⟩
    cases stt with
    | none => exact Option.noConfusion h
    | some v =>
      dsimp only [gpaMarkerSnapshot] at h
      dsimp only [gpaMarkerActive]
      by_cases ht : v.truthy
      · rw [if_pos ht] at h
        rw [if_pos ht]
        cases v with
        | vDict entries =>
          have h' : (match lookupKey entries IS_GPA with
              | some (Val.vBool true) => lookupKey entries GPA_MESSAGES
              | _ => none) = some snap := h
          show (match lookupKey entries IS_GPA with
              | some (Val.vBool true) => true
              | _ => false) = true
          cases hl : lookupKey entries IS_GPA with
          | none => rw [hl] at h'; exact Option.noConfusion h'
          | some w =>
            rw [hl] at h'
            cases w with
            | vBool b =>
              cases b with
              | true => rfl
              | false => exact Option.noConfusion h'
            | vStr s => exact Option.noConfusion h'
            | vNat n => exact Option.noConfusion h'
            | vDict d => exact Option.noConfusion h'
        | vStr s => exact Option.noConfusion h
        | vBool b => exact Option.noConfusion h
        | vNat n => exact Option.noConfusion h
      · rw [if_neg ht] at h
        exact Option.noConfusion h

theorem gpaEmit_marked (prev : Option Msg) (m : Msg) (snap : Val)
    (hrole : m.role = Role.assistant) (hsnap : gpaMarkerSnapshot m = some snap) :
    gpaEmit prev m
      = (match prev with | some p => [p] | none => []) ++ [restoreAssistant m snap] := by
  have hact := gpaMarkerActive_of_snapshot m snap hsnap
  dsimp only [gpaEmit]
  rw [if_pos ⟨hrole, hact⟩, hsnap]

theorem gpaEmit_not_assistant (prev : Option Msg) (m : Msg)
    (h : m.role ≠ Role.assistant) : gpaEmit prev m = [] := by
  dsimp only [gpaEmit]
  rw [if_neg]
  exact fun hc => h hc.1

theorem gpaEmit_inactive (prev : Option Msg) (m : Msg)
    (h : gpaMarkerActive m = false) : gpaEmit prev m = [] := by
  dsimp only [gpaEmit]
  rw [if_neg]
  intro hc
  rw [hc.2] at h
  cases h

/-- C3: when the prior history contains a GPA-marked assistant message with
a stored snapshot, `__prepare_gpa_messages` reinserts the immediately
preceding user message verbatim, followed by the assistant message with its
side-channel state replaced by the snapshot, and this pair appears ahead of
the (possibly instruction-augmented) final message. -/
theorem gpa_continuity_reconstruction (pre post : List Msg) (u a : Msg) (snap : Val)
    (instr : Option String) (hu : u.role = Role.user) (ha : a.role = Role.assistant)
    (hsnap : gpaMarkerSnapshot a = some snap) :
    prepareGpaMessages (pre ++ u :: a :: post) instr
      = gpaHistory none pre
          ++ ([u, restoreAssistant a snap]
              ++ (gpaHistory (some a) post ++ [augment (post.getLastD a) instr])) := by
  have hune : u.role ≠ Role.assistant := by rw [hu]; intro hc; cases hc
  dsimp only [prepareGpaMessages]
  rw [gpaHistory_append]
  have h1 : ∀ p : Option Msg, gpaHistory p (u :: a :: post)
      = [u, restoreAssistant a snap] ++ gpaHistory (some a) post := by
    intro p
    show gpaEmit p u ++ (gpaEmit (some u) a ++ gpaHistory (some a) post) = _
    rw [gpaEmit_not_assistant p u hune, gpaEmit_marked (some u) a snap ha hsnap]
    simp
  rw [h1]
  have h2 : (pre ++ u :: a :: post).getLast? = some (post.getLastD a) := by
    rw [getLast?_append_orO, getLast?_cons_getLastD, List.getLastD_cons]
    rfl
  rw [h2]
  simp [List.append_assoc]

/-- Witness: the reconstruction theorem at a concrete marked pair. -/
theorem gpa_continuity_reconstruction_witness :
    prepareGpaMessages [userMsg "hi", gpaAssistant, userMsg "next"] none
      = [userMsg "hi", restoreAssistant gpaAssistant (Val.vDict [("m", Val.vStr "x")]),
         userMsg "next"] := by
  have h := gpa_continuity_reconstruction [] [userMsg "next"] (userMsg "hi") gpaAssistant
    (Val.vDict [("m", Val.vStr "x")]) none rfl rfl rfl
  exact h.trans rfl

/-! ## Filtering of non-GPA history -/

theorem zip_tail_lift (rest : List Msg) (m x y : Msg)
    (h : (x, y) ∈ rest.zip rest.tail) : (x, y) ∈ (m :: rest).zip rest := by
  cases rest with
  | nil => cases h
  | cons r rs => exact List.mem_cons_of_mem _ h

theorem gpaHistory_nil_of_unmarked (msgs : List Msg) (prev : Option Msg)
    (h : ∀ x ∈ msgs, gpaMarkerActive x = false) : gpaHistory prev msgs = [] := by
  induction msgs generalizing prev with
  | nil => rfl
  | cons m rest ih =>
    show gpaEmit prev m ++ gpaHistory (some m) rest = []
    rw [gpaEmit_inactive prev m (h m (List.mem_cons_self m rest)),
      ih (some m) (fun x hx => h x (List.mem_cons_of_mem m hx))]
    rfl

theorem gpaHistory_mem (msgs : List Msg) (prev : Option Msg) (m' : Msg)
    (h : m' ∈ gpaHistory prev msgs) :
    (∃ b snap, b ∈ msgs ∧ b.role = Role.assistant ∧ gpaMarkerSnapshot b = some snap
       ∧ m' = restoreAssistant b snap)
    ∨ (∃ b, b.role = Role.assistant ∧ gpaMarkerActive b = true
       ∧ ((m', b) ∈ msgs.zip msgs.tail ∨ (prev = some m' ∧ msgs.head? = some b))) := by
  induction msgs generalizing prev with
  | nil => cases h
  | cons m rest ih =>
    have hsplit : m' ∈ gpaEmit prev m ∨ m' ∈ gpaHistory (some m) rest :=
      List.mem_append.mp h
    rcases hsplit with h1 | h2
    · dsimp only [gpaEmit] at h1
      by_cases hc : m.role = Role.assistant ∧ gpaMarkerActive m = true
      · rw [if_pos hc] at h1
        rcases List.mem_append.mp h1 with hp | hs
        · cases hprev : prev with
          | none => rw [hprev] at hp; cases hp
          | some p =>
            rw [hprev] at hp
            have : m' = p := List.mem_singleton.mp hp
            subst this
            exact Or.inr ⟨m, hc.1, hc.2, Or.inr ⟨rfl, rfl⟩⟩
        · cases hsnap : gpaMarkerSnapshot m with
          | none => rw [hsnap] at hs; cases hs
          | some snap =>
            rw [hsnap] at hs
            have : m' = restoreAssistant m snap := List.mem_singleton.mp hs
            exact Or.inl ⟨m, snap, List.mem_cons_self m rest, hc.1, hsnap, this⟩
      · rw [if_neg hc] at h1
        cases h1
    · rcases ih (some m) h2 with ⟨b, snap, hb, h3, h4, h5⟩ | ⟨b, h3, h4, h5⟩
      · exact Or.inl ⟨b, snap, List.mem_cons_of_mem m hb, h3, h4, h5⟩
      · rcases h5 with hz | ⟨hp, hh⟩
        · exact Or.inr ⟨b, h3, h4, Or.inl (zip_tail_lift rest m m' b hz)⟩
        · have hm : m = m' := Option.some.inj hp
          subst hm
          cases rest with
          | nil => cases hh
          | cons r rs =>
            have hr : r = b := Option.some.inj hh
            exact Or.inr ⟨b, h3, h4, Or.inl (by rw [← hr]; exact List.mem_cons_self _ _)⟩

/-- C10 (amended): `__prepare_gpa_messages` adds no system prompt of its
own; every message it sends is either the (possibly augmented) final request
message, a restored GPA-marked assistant message, or the message immediately
preceding a GPA-marked assistant message in the request — whatever its role;
every other prior message (user, assistant without the marker, or system) is
dropped, and on a turn with no GPA-marked history the backend receives
exactly one message, the augmented final message. -/
theorem gpa_prepare_filters_history (msgs : List Msg) (instr : Option String) (m' : Msg) :
    (m' ∈ prepareGpaMessages msgs instr →
      (∃ last, msgs.getLast? = some last ∧ m' = augment last instr)
      ∨ (∃ b snap, b ∈ msgs ∧ b.role = Role.assistant ∧ gpaMarkerSnapshot b = some snap
          ∧ m' = restoreAssistant b snap)
      ∨ (∃ b, b.role = Role.assistant ∧ gpaMarkerActive b = true
          ∧ (m', b) ∈ msgs.zip msgs.tail))
    ∧ ((∀ x ∈ msgs, gpaMarkerActive x = false) → ∀ d : Msg, msgs ≠ [] →
      prepareGpaMessages msgs instr = [augment (msgs.getLastD d) instr]) := by
  constructor
  · intro h
    dsimp only [prepareGpaMessages] at h
    rcases List.mem_append.mp h with h1 | h2
    · rcases gpaHistory_mem msgs none m' h1 with ⟨b, snap, hb, h3, h4, h5⟩ | ⟨b, h3, h4, h5⟩
      · exact Or.inr (Or.inl ⟨b, snap, hb, h3, h4, h5⟩)
      · rcases h5 with hz | ⟨hp, _⟩
        · exact Or.inr (Or.inr ⟨b, h3, h4, hz⟩)
        · cases hp
    · cases hlast : msgs.getLast? with
      | none => rw [hlast] at h2; cases h2
      | some last =>
        rw [hlast] at h2
        exact Or.inl ⟨last, rfl, List.mem_singleton.mp h2⟩
  · intro hall d hne
    dsimp only [prepareGpaMessages]
    rw [gpaHistory_nil_of_unmarked msgs none hall]
    cases msgs with
    | nil => exact absurd rfl hne
    | cons x xs =>
      rw [getLast?_cons_getLastD, List.getLastD_cons]
      rfl

/-- C10 counterexample: with history `[system, GPA-marked assistant, user]`
the prepared GPA message list still contains the system message (it
immediately precedes the marked assistant message and is reinserted),
contradicting the claim that system messages are always dropped. -/
theorem gpa_prepare_keeps_system_message :
    (prepareGpaMessages [sysMsg, gpaAssistant, userMsg "q"] none).map Msg.role
      = [Role.system, Role.assistant, Role.user]
    ∧ sysMsg.role = Role.system :=
  ⟨rfl, rfl⟩

/-- Witness for the filtering theorem at concrete inputs. -/
theorem gpa_prepare_filters_history_witness :
    prepareGpaMessages [userMsg "q"] none
      = [augment (([userMsg "q"] : List Msg).getLastD (userMsg "q")) none]
    ∧ ((∃ last, ([userMsg "q"] : List Msg).getLast? = some last
          ∧ userMsg "q" = augment last none)
       ∨ (∃ b snap, b ∈ ([userMsg "q"] : List Msg) ∧ b.role = Role.assistant
          ∧ gpaMarkerSnapshot b = some snap ∧ userMsg "q" = restoreAssistant b snap)
       ∨ (∃ b, b.role = Role.assistant ∧ gpaMarkerActive b = true
          ∧ (userMsg "q", b) ∈ ([userMsg "q"] : List Msg).zip ([userMsg "q"] : List Msg).tail)) := by
  constructor
  · exact (gpa_prepare_filters_history [userMsg "q"] none (userMsg "q")).2
      (by intro x hx; rw [List.mem_singleton] at hx; subst hx; rfl)
      (userMsg "q") (by intro hc; cases hc)
  · exact (gpa_prepare_filters_history [userMsg "q"] none (userMsg "q")).1
      (List.mem_cons_self _ _)

/-! ## GPA state persistence (C4) -/

/-- C4: after the GPA stream ends, a non-empty merged result state is stored
on the choice wrapped with the GPA continuity marker — and the next turn's
reconstruction finds the snapshot under that marker — while an empty (or
absent) merged state leaves the choice state unset. -/
theorem gpa_state_persistence (chunks : List Chunk) :
    (truthyState (gpaRun chunks).resultState = true →
      (gpaResponse chunks).choiceState
        = some (Val.vDict [(IS_GPA, Val.vBool true),
            (GPA_MESSAGES, Val.vDict ((gpaRun chunks).resultState.getD []))])
      ∧ gpaMarkerSnapshot
          { role := Role.assistant, content := some (gpaRun chunks).content,
            custom_content := some { attachments := none, state := (gpaResponse chunks).choiceState } }
          = some (Val.vDict ((gpaRun chunks).resultState.getD [])))
    ∧ (truthyState (gpaRun chunks).resultState = false →
      (gpaResponse chunks).choiceState = none) := by
  constructor
  · intro h
    have hcs : (gpaResponse chunks).choiceState
        = some (Val.vDict [(IS_GPA, Val.vBool true),
            (GPA_MESSAGES, Val.vDict ((gpaRun chunks).resultState.getD []))]) := by
      dsimp only [gpaResponse, gpaFinish]
      rw [if_pos h]
    refine ⟨hcs, ?_⟩
    rw [hcs]
    rfl
  · intro h
    dsimp only [gpaResponse, gpaFinish]
    rw [if_neg]
    rw [h]
    exact Bool.false_ne_true

/-- Witness: state persistence at a stream with state and one without. -/
theorem gpa_state_persistence_witness :
    ((gpaResponse exampleStream).choiceState
      = some (Val.vDict [(IS_GPA, Val.vBool true),
          (GPA_MESSAGES, Val.vDict ((gpaRun exampleStream).resultState.getD []))]))
    ∧ (gpaResponse [contentChunk "A"]).choiceState = none :=
  ⟨((gpa_state_persistence exampleStream).1 rfl).1,
   (gpa_state_persistence [contentChunk "A"]).2 rfl⟩

/-! ## UMS gateway lemmas -/

theorem lookupKey_isSome_of_hasKey (d : List (String × Val)) (k : String)
    (h : hasKey d k = true) : ∃ v, lookupKey d k = some v := by
  induction d with
  | nil => cases h
  | cons p rest ih =>
    rw [lookupKey_cons]
    by_cases hp : p.1 = k
    · exact ⟨p.2, by rw [if_pos hp]⟩
    · rw [if_neg hp]
      apply ih
      dsimp only [hasKey] at h ⊢
      rw [List.any_cons] at h
      rcases Bool.or_eq_true_iff.mp h with h1 | h1
      · exact absurd (of_decide_eq_true h1) hp
      · exact h1

theorem getUms_cons (m : Msg) (rest : List Msg) :
    getUmsConversationId (m :: rest)
      = orO (umsMarkerOf m) (getUmsConversationId rest) := by
  rcases m with ⟨r, c, cc⟩
  cases cc with
  | none => rfl
  | some cc' =>
    rcases cc' with ⟨att, stt⟩
    dsimp only [getUmsConversationId, umsMarkerOf]
    by_cases hr : r = Role.assistant
    · rw [if_pos hr, if_pos hr]
      cases stt with
      | none => rfl
      | some v =>
        show (if v.truthy = true then
                (match v with
                 | Val.vDict entries =>
                   if hasKey entries UMS_CONVERSATION_ID = true then
                     lookupKey entries UMS_CONVERSATION_ID
                   else getUmsConversationId rest
                 | _ => getUmsConversationId rest)
              else getUmsConversationId rest)
            = orO (if v.truthy = true then
                    (match v with
                     | Val.vDict entries =>
                       if hasKey entries UMS_CONVERSATION_ID = true then
                         lookupKey entries UMS_CONVERSATION_ID
                       else none
                     | _ => none)
                  else none) (getUmsConversationId rest)
        by_cases ht : v.truthy
        · rw [if_pos ht, if_pos ht]
          cases v with
          | vDict entries =>
            dsimp only
            by_cases hk : hasKey entries UMS_CONVERSATION_ID
            · rw [if_pos hk, if_pos hk]
              obtain ⟨w, hw⟩ := lookupKey_isSome_of_hasKey entries UMS_CONVERSATION_ID hk
              rw [hw]
              rfl
            · rw [if_neg hk, if_neg hk]
              rfl
          | vStr s => rfl
          | vBool b => rfl
          | vNat n => rfl
        · rw [if_neg ht, if_neg ht]
          rfl
    · rw [if_neg hr, if_neg hr]
      rfl

theorem getUms_first_match (pre : List Msg) (m : Msg) (post : List Msg) (v : Val)
    (hpre : ∀ x ∈ pre, umsMarkerOf x = none) (hm : umsMarkerOf m = some v) :
    getUmsConversationId (pre ++ m :: post) = some v := by
  induction pre with
  | nil =>
    rw [List.nil_append, getUms_cons, hm]
    rfl
  | cons p rest ih =>
    rw [List.cons_append, getUms_cons, hpre p (List.mem_cons_self p rest)]
    exact ih fun x hx => hpre x (List.mem_cons_of_mem p hx)

theorem processUMSLines_append (lines : List UMSLine) (acc : String) :
    processUMSLines lines acc = acc ++ processUMSLines lines "" := by
  induction lines generalizing acc with
  | nil => exact (String.append_empty acc).symm
  | cons l rest ih =>
    dsimp only [processUMSLines]
    split_ifs with h1 h2
    · exact ih acc
    · exact (String.append_empty acc).symm
    · cases hp : l.parsed with
      | none => exact ih acc
      | some env =>
        dsimp only
        by_cases hc : env.hasConversationId
        · rw [if_pos hc, if_pos hc]
          exact ih acc
        · rw [if_neg hc, if_neg hc]
          cases hd : env.choices.head? with
          | none => exact ih acc
          | some d =>
            dsimp only
            cases hcont : d.content with
            | none => exact ih acc
            | some chunk =>
              dsimp only
              rw [ih (acc ++ chunk), ih ("" ++ chunk), String.empty_append,
                String.append_assoc]

theorem umsResponse_found (msgs : List Msg) (create : CreateHttp) (fresh : String)
    (lines : List UMSLine) (h : optTruthy (getUmsConversationId msgs) = true) :
    umsResponse msgs create fresh (.ok lines)
      = .ok { message := { role := Role.assistant, content := some (processUMSLines lines ""), custom_content := none },
              choiceState := none, creationCalled := false,
              chatConversationId := (getUmsConversationId msgs).getD (Val.vStr "") } := by
  dsimp only [umsResponse]
  rw [if_pos h]
  rfl

theorem umsResponse_created (msgs : List Msg) (create : CreateHttp) (fresh : String)
    (lines : List UMSLine) (cid : String)
    (h : optTruthy (getUmsConversationId msgs) = false)
    (hc : createUmsConversation create fresh = .ok cid) :
    umsResponse msgs create fresh (.ok lines)
      = .ok { message := { role := Role.assistant, content := some (processUMSLines lines ""), custom_content := none },
              choiceState := some (Val.vDict [(UMS_CONVERSATION_ID, Val.vStr cid)]),
              creationCalled := true,
              chatConversationId := Val.vStr cid } := by
  dsimp only [umsResponse]
  rw [if_neg (by rw [h]; exact Bool.false_ne_true), hc]
  rfl

/-- C5 (amended): the UMS gateway's final message always has role assistant,
content equal to the in-order concatenation of the forwarded stream deltas,
and no side channel on the message itself; the continuity identifier is
written to the choice state under the UMS marker only on the creation path
(no truthy prior identifier recovered), while a recovered truthy identifier
is reused with no state written this turn. -/
theorem ums_response_output (msgs : List Msg) (create : CreateHttp) (fresh : String)
    (lines : List UMSLine) (cid : String) :
    (optTruthy (getUmsConversationId msgs) = true →
      umsResponse msgs create fresh (.ok lines)
        = .ok { message := { role := Role.assistant, content := some (processUMSLines lines ""), custom_content := none },
                choiceState := none, creationCalled := false,
                chatConversationId := (getUmsConversationId msgs).getD (Val.vStr "") })
    ∧ (optTruthy (getUmsConversationId msgs) = false →
       createUmsConversation create fresh = .ok cid →
      umsResponse msgs create fresh (.ok lines)
        = .ok { message := { role := Role.assistant, content := some (processUMSLines lines ""), custom_content := none },
                choiceState := some (Val.vDict [(UMS_CONVERSATION_ID, Val.vStr cid)]),
                creationCalled := true,
                chatConversationId := Val.vStr cid })
    ∧ (∀ acc, processUMSLines lines acc = acc ++ processUMSLines lines "") := by
  exact ⟨umsResponse_found msgs create fresh lines,
    umsResponse_created msgs create fresh lines cid,
    processUMSLines_append lines⟩

/-- C5 counterexample: with a prior assistant message carrying the UMS id
`"abc"`, the gateway resolves that identifier but the returned message
carries no side-channel state and nothing is written to the choice state
this turn, contradicting the claim that the final message's side-channel
state is set to the resolved identifier. -/
theorem ums_state_not_set_on_recovered_id :
    getUmsConversationId [umsAssistant "abc"] = some (Val.vStr "abc")
    ∧ umsResponse [umsAssistant "abc"] (.ok "new") "fresh" (.ok [lineContent "X"])
        = .ok { message := { role := Role.assistant, content := some "X", custom_content := none },
                choiceState := none, creationCalled := false,
                chatConversationId := Val.vStr "abc" } :=
  ⟨rfl, rfl⟩

/-- Witness: the UMS output theorem at a recovered id and at a fresh
creation. -/
theorem ums_response_output_witness :
    (umsResponse [umsAssistant "abc"] (.ok "new") "fresh" (.ok [lineContent "X"])
      = .ok { message := { role := Role.assistant, content := some (processUMSLines [lineContent "X"] ""), custom_content := none },
              choiceState := none, creationCalled := false,
              chatConversationId := (getUmsConversationId [umsAssistant "abc"]).getD (Val.vStr "") })
    ∧ (umsResponse [] (.ok "new") "fresh" (.ok [lineContent "X"])
      = .ok { message := { role := Role.assistant, content := some (processUMSLines [lineContent "X"] ""), custom_content := none },
              choiceState := some (Val.vDict [(UMS_CONVERSATION_ID, Val.vStr "new")]),
              creationCalled := true,
              chatConversationId := Val.vStr "new" }) :=
  ⟨(ums_response_output [umsAssistant "abc"] (.ok "new") "fresh" [lineContent "X"] "new").1 rfl,
   (ums_response_output [] (.ok "new") "fresh" [lineContent "X"] "new").2.1 rfl rfl⟩

/-- C6 (amended): UMS continuity recovery scans the prior messages in
forward order and returns the value under the marker of the first message
that carries it; when that identifier is truthy (non-empty) it is reused
for the chat call and no creation request is issued; when no identifier is
found — or the found identifier is falsy, like the empty string — the
dedicated creation call is issued. -/
theorem ums_continuity_scan (pre post : List Msg) (m : Msg) (v : Val)
    (msgs : List Msg) (create : CreateHttp) (fresh : String) (lines : List UMSLine)
    (cid : String) :
    ((∀ x ∈ pre, umsMarkerOf x = none) → umsMarkerOf m = some v →
      getUmsConversationId (pre ++ m :: post) = some v)
    ∧ (optTruthy (getUmsConversationId msgs) = true →
      creationCalledOf (umsResponse msgs create fresh (.ok lines)) = some false
      ∧ chatIdOf (umsResponse msgs create fresh (.ok lines))
          = some ((getUmsConversationId msgs).getD (Val.vStr "")))
    ∧ (optTruthy (getUmsConversationId msgs) = false →
       createUmsConversation create fresh = .ok cid →
      creationCalledOf (umsResponse msgs create fresh (.ok lines)) = some true) := by
  refine ⟨getUms_first_match pre m post v, ?_, ?_⟩
  · intro h
    rw [umsResponse_found msgs create fresh lines h]
    exact ⟨rfl, rfl⟩
  · intro h hc
    rw [umsResponse_created msgs create fresh lines cid h hc]
    rfl

/-- C6 counterexample: an assistant message carrying the UMS marker with the
empty-string identifier — the identifier is found by the scan, yet the
gateway still issues the creation call, contradicting the claim that a
found identifier suppresses creation. -/
theorem ums_empty_id_triggers_creation :
    getUmsConversationId [umsAssistant ""] = some (Val.vStr "")
    ∧ creationCalledOf (umsResponse [umsAssistant ""] (.ok "new") "fresh" (.ok []))
        = some true :=
  ⟨rfl, rfl⟩

/-- Witness: the scan theorem at concrete messages. -/
theorem ums_continuity_scan_witness :
    getUmsConversationId [userMsg "hello", umsAssistant "abc"] = some (Val.vStr "abc")
    ∧ creationCalledOf (umsResponse [umsAssistant "abc"] (.ok "new") "fresh" (.ok []))
        = some false
    ∧ creationCalledOf (umsResponse [] (.ok "new") "fresh" (.ok [])) = some true := by
  refine ⟨?_, ?_, ?_⟩
  · exact (ums_continuity_scan [userMsg "hello"] [] (umsAssistant "abc") (Val.vStr "abc")
      [] (.ok "new") "fresh" [] "new").1
      (by intro x hx; rw [List.mem_singleton] at hx; subst hx; rfl) rfl
  · exact ((ums_continuity_scan [] [] (umsAssistant "abc") (Val.vStr "abc")
      [umsAssistant "abc"] (.ok "new") "fresh" [] "new").2.1 rfl).1
  · exact (ums_continuity_scan [] [] (umsAssistant "abc") (Val.vStr "abc")
      [] (.ok "new") "fresh" [] "new").2.2 rfl rfl

/-- C7: a UMS conversation-creation failure with a non-2xx status is caught:
the gateway substitutes the locally generated UUID, proceeds to the chat
call with it, stores it in the choice state, and the turn completes
normally instead of raising. -/
theorem ums_creation_fallback (msgs : List Msg) (code : Nat) (fresh : String)
    (lines : List UMSLine) (h : optTruthy (getUmsConversationId msgs) = false) :
    createUmsConversation (.httpStatusError code) fresh = .ok fresh
    ∧ umsResponse msgs (.httpStatusError code) fresh (.ok lines)
        = .ok { message := { role := Role.assistant, content := some (processUMSLines lines ""), custom_content := none },
                choiceState := some (Val.vDict [(UMS_CONVERSATION_ID, Val.vStr fresh)]),
                creationCalled := true,
                chatConversationId := Val.vStr fresh } :=
  ⟨rfl, umsResponse_created msgs (.httpStatusError code) fresh lines fresh h rfl⟩

/-- Witness: creation fallback at a concrete failing status. -/
theorem ums_creation_fallback_witness :
    umsResponse [] (.httpStatusError 500) "fallback-id" (.ok [lineContent "X"])
      = .ok { message := { role := Role.assistant, content := some (processUMSLines [lineContent "X"] ""), custom_content := none },
              choiceState := some (Val.vDict [(UMS_CONVERSATION_ID, Val.vStr "fallback-id")]),
              creationCalled := true,
              chatConversationId := Val.vStr "fallback-id" } :=
  (ums_creation_fallback [] 500 "fallback-id" [lineContent "X"] rfl).2

/-- C8: while consuming the UMS event stream, a line whose stripped data
equals the literal `[DONE]` terminates consumption; a line whose envelope
fails to parse is skipped silently and the stream continues; an envelope
containing a `conversation_id` key is skipped and contributes nothing. -/
theorem ums_stream_error_handling (l : UMSLine) (rest : List UMSLine) (acc : String)
    (env : UMSEnvelope) :
    (pyStrip l.text ≠ "" → pyStrip (stripData l.text) = "[DONE]" →
      processUMSLines (l :: rest) acc = acc)
    ∧ (pyStrip l.text ≠ "" → pyStrip (stripData l.text) ≠ "[DONE]" → l.parsed = none →
      processUMSLines (l :: rest) acc = processUMSLines rest acc)
    ∧ (pyStrip l.text ≠ "" → pyStrip (stripData l.text) ≠ "[DONE]" → l.parsed = some env →
       env.hasConversationId = true →
      processUMSLines (l :: rest) acc = processUMSLines rest acc) := by
  refine ⟨?_, ?_, ?_⟩
  · intro h1 h2
    dsimp only [processUMSLines]
    rw [if_neg h1, if_pos h2]
  · intro h1 h2 hp
    dsimp only [processUMSLines]
    rw [if_neg h1, if_neg h2, hp]
  · intro h1 h2 hp hc
    dsimp only [processUMSLines]
    rw [if_neg h1, if_neg h2, hp]
    dsimp only
    rw [if_pos hc]

/-- Witness: stream handling at concrete lines. -/
theorem ums_stream_error_handling_witness :
    processUMSLines [lineDone, lineContent "Y"] "" = ""
    ∧ processUMSLines [lineBad, lineContent "W"] ""
        = processUMSLines [lineContent "W"] ""
    ∧ processUMSLines [lineConvId, lineContent "W"] ""
        = processUMSLines [lineContent "W"] "" := by
  refine ⟨?_, ?_, ?_⟩
  · exact (ums_stream_error_handling lineDone [lineContent "Y"] ""
      ⟨false, []⟩).1 (by decide) (by decide)
  · exact (ums_stream_error_handling lineBad [lineContent "W"] ""
      ⟨false, []⟩).2.1 (by decide) (by decide) rfl
  · exact (ums_stream_error_handling lineConvId [lineContent "W"] ""
      ⟨true, [⟨some "Z"⟩]⟩).2.2 (by decide) (by decide) rfl rfl

/-! ## Coordinator (C9) -/

/-- C9: on every turn that reaches dispatch (routing succeeded), exactly one
backend gateway is invoked and it is the routed one; the agent output
section is named for the chosen agent; at most one top-level section is
open at any time; and the full traces show the coordination section closed
before the agent section opens and the agent section closed on both normal
completion and exception. -/
theorem coordinator_single_gateway (routing : Except Unit CoordinationRequest)
    (gw : AgentName → Except Unit Msg) (cr : CoordinationRequest)
    (h : routing = .ok cr) :
    ((handleRequest routing gw).1.countP isInvoke = 1)
    ∧ (TurnEvt.invokeGateway cr.agent_name ∈ (handleRequest routing gw).1)
    ∧ (TurnEvt.openStage (cr.agent_name.label ++ " Agent Response")
        ∈ (handleRequest routing gw).1)
    ∧ maxOpen (handleRequest routing gw).1 ≤ 1
    ∧ (∀ m, gw cr.agent_name = .ok m →
        (handleRequest routing gw).1
          = [.openStage "Coordination Request", .closeStage "Coordination Request",
             .openStage (cr.agent_name.label ++ " Agent Response"),
             .invokeGateway cr.agent_name,
             .closeStage (cr.agent_name.label ++ " Agent Response")])
    ∧ (gw cr.agent_name = .error () →
        (handleRequest routing gw).1
          = [.openStage "Coordination Request", .closeStage "Coordination Request",
             .openStage (cr.agent_name.label ++ " Agent Response"),
             .invokeGateway cr.agent_name,
             .closeStage (cr.agent_name.label ++ " Agent Response"),
             .closeStage "Coordination Request"]) := by
  subst h
  rcases cr with ⟨an, ai⟩
  dsimp only [handleRequest]
  cases hgw : gw an with
  | ok m0 =>
    refine ⟨?_, ?_, ?_, ?_, ?_, ?_⟩
    · rfl
    · exact List.mem_cons_of_mem _ (List.mem_cons_of_mem _
        (List.mem_cons_of_mem _ (List.mem_cons_self _ _)))
    · exact List.mem_cons_of_mem _ (List.mem_cons_of_mem _ (List.mem_cons_self _ _))
    · cases an <;> (dsimp only; decide)
    · intro m hm
      rfl
    · intro hE
      exact Except.noConfusion hE
  | error e =>
    cases e
    refine ⟨?_, ?_, ?_, ?_, ?_, ?_⟩
    · rfl
    · exact List.mem_cons_of_mem _ (List.mem_cons_of_mem _
        (List.mem_cons_of_mem _ (List.mem_cons_self _ _)))
    · exact List.mem_cons_of_mem _ (List.mem_cons_of_mem _ (List.mem_cons_self _ _))
    · cases an <;> (dsimp only; decide)
    · intro m hm
      exact Except.noConfusion hm
    · intro hE
      rfl

/-- Witness: the coordinator theorem at a concrete routed turn. -/
theorem coordinator_single_gateway_witness :
    ((handleRequest (.ok ⟨AgentName.UMS, none⟩) (fun _ => .ok (userMsg "done"))).1.countP isInvoke = 1)
    ∧ maxOpen (handleRequest (.ok ⟨AgentName.UMS, none⟩) (fun _ => .ok (userMsg "done"))).1 ≤ 1
    ∧ (handleRequest (.ok ⟨AgentName.UMS, none⟩) (fun _ => .ok (userMsg "done"))).1
        = [.openStage "Coordination Request", .closeStage "Coordination Request",
           .openStage (AgentName.UMS.label ++ " Agent Response"),
           .invokeGateway AgentName.UMS,
           .closeStage (AgentName.UMS.label ++ " Agent Response")] := by
  have h := coordinator_single_gateway (.ok ⟨AgentName.UMS, none⟩)
    (fun _ => .ok (userMsg "done")) ⟨AgentName.UMS, none⟩ rfl
  exact ⟨h.1, h.2.2.2.1, h.2.2.2.2.1 (userMsg "done") rfl⟩

end MAS
